import Mathlib

/-
Verification development for the chops-net-ip core: a shallow embedding of
the TCP IO handler (`tcp_io`, detail/tcp_io.hpp), the UDP entity/IO handler
(`udp_entity_io`, detail/udp_entity_io.hpp), the TCP connector
(`tcp_connector`, detail/tcp_connector.hpp) and the entity handle class
template (`basic_net_entity`, basic_net_entity.hpp).

Machine integers: all byte and size values are modelled as `Nat`; buffers are
`List Nat`.  Asynchronous socket operations (reads, writes, timer and socket
management) are modelled as explicit events recorded in traces, and the data
an async read places into a buffer is passed in as an argument of the
completion-handler model.
-/

namespace ChopsNet

/-- Endpoint model: a host/port pair.  A default-constructed
`ip::udp::endpoint` / `ip::tcp::endpoint` is the all-zero value. -/
structure Endp where
  host : Nat
  port : Nat
deriving DecidableEq, Repr

/-- Model of a default-constructed endpoint. -/
def Endp.dflt : Endp := ⟨0, 0⟩

/-- Error codes from net_ip_error.hpp (`net_ip_errc`), plus `os_error` for
transparent passthrough of OS-level socket error codes. -/
inductive NetErrc where
  | message_handler_terminated
  | tcp_io_handler_stopped
  | udp_io_handler_stopped
  | udp_entity_stopped
  | tcp_connector_stopped
  | weak_ptr_expired
  | os_error (code : Nat)
deriving DecidableEq, Repr

/-- Byte buffer contents. -/
abbrev Buf := List Nat

/-- Model of `std::vector::resize`: truncate or extend with value-initialized
(zero) elements. -/
def listResize (l : Buf) (n : Nat) : Buf :=
  l.take n ++ List.replicate (n - l.length) 0

/-- Modelled from the spec: `io_common` (net_ip/detail/io_common.hpp is not
among the provided sources; spec section 4.2 "OutputQueue + IoCommon" gives
its contract).  Per-handler state: started flag, write-in-flight flag, and
the output queue of (buffer, optional destination endpoint) elements. -/
structure IoCommonSt where
  ioStarted : Bool
  writeInFlight : Bool
  outq : List (Buf × Option Endp)
deriving DecidableEq, Repr

/-- Model of a default-constructed `io_common`. -/
def IoCommonSt.init : IoCommonSt := ⟨false, false, []⟩

/-- Modelled from the spec: `io_common::set_io_started`, spec 4.2:
"atomically flips started false→true; returns false if already started". -/
def set_io_started (s : IoCommonSt) : Bool × IoCommonSt :=
  if s.ioStarted then (false, s) else (true, { s with ioStarted := true })

/-- Modelled from the spec: `io_common::stop`, spec 4.2: "atomically flips
started true→false; returns false if already stopped". -/
def io_common_stop (s : IoCommonSt) : Bool × IoCommonSt :=
  if s.ioStarted then (true, { s with ioStarted := false }) else (false, s)

/-- Modelled from the spec: `io_common::start_write_setup`, spec 4.2: "If not
started, drops the buffer and returns false.  If a write is in flight,
enqueues and returns false (do not start a new write).  Else marks
writeInFlight=true and returns true." -/
def start_write_setup (s : IoCommonSt) (buf : Buf) (endp : Option Endp) :
    Bool × IoCommonSt :=
  if !s.ioStarted then (false, s)
  else if s.writeInFlight then (false, { s with outq := s.outq ++ [(buf, endp)] })
  else (true, { s with writeInFlight := true })

/-- Modelled from the spec: `io_common::get_next_element`, spec 4.2: "called
on write completion; pops the next queued element and keeps
writeInFlight=true, else clears writeInFlight and returns None". -/
def get_next_element (s : IoCommonSt) :
    Option (Buf × Option Endp) × IoCommonSt :=
  match s.outq with
  | [] => (none, { s with writeInFlight := false })
  | e :: rest => (some e, { s with outq := rest })

/-- Modelled from the spec: the `started` CAS of `net_entity_common` /
`net_entity_base` (spec 4.7 "EntityBase": atomic started flag with
start()→bool / stop()→bool CAS semantics).  `entity_start_flag` flips the
flag false→true, returning false if already started. -/
def entity_start_flag (started : Bool) : Bool × Bool :=
  if started then (false, started) else (true, true)

/-- Modelled from the spec: `stop` CAS of `net_entity_common` /
`net_entity_base` (spec 4.7), flipping the flag true→false and returning
false if already stopped. -/
def entity_stop_flag (started : Bool) : Bool × Bool :=
  if started then (true, false) else (false, started)

/-! ## TCP IO handler (`tcp_io`, detail/tcp_io.hpp) -/

/-- Observable actions of a `tcp_io` handler: entity notification
(`m_notifier_cb`), starting an async read of a buffer region, starting an
`async_read_until`, and starting an `async_write`. -/
inductive TcpEvent where
  | notify (e : NetErrc)
  | startRead (off len : Nat)
  | startReadUntil
  | asyncWrite (buf : Buf)
deriving DecidableEq, Repr

/-- State of a `tcp_io` handler: `m_io_common`, `m_remote_endp`,
`m_byte_vec`, `m_read_size` and `m_delimiter`.  The socket itself is
external; results of socket calls are passed in as arguments. -/
structure TcpIo where
  ioc : IoCommonSt
  remoteEndp : Endp
  byteVec : Buf
  readSize : Nat
  delimiter : Buf
deriving DecidableEq, Repr

/-- Model of the `tcp_io` constructor: default `io_common`, default remote
endpoint, empty byte vector, read size 0, empty delimiter. -/
def tcp_io_init : TcpIo := ⟨IoCommonSt.init, Endp.dflt, [], 0, []⟩

/-- Model of `tcp_io::start_io_setup` (tcp_io.hpp lines 178-189).
`remoteRes` is the outcome of `m_socket.remote_endpoint(ec)`: `.error code`
when `ec` is set, `.ok e` otherwise.  Returns (result, new state, events). -/
def tcp_start_io_setup (s : TcpIo) (remoteRes : Except Nat Endp) :
    Bool × TcpIo × List TcpEvent :=
  match set_io_started s.ioc with
  | (false, _) => (false, s, [])
  | (true, ioc') =>
    let s1 := { s with ioc := ioc' }
    match remoteRes with
    | .error code => (false, s1, [.notify (.os_error code)])
    | .ok e => (true, { s1 with remoteEndp := e }, [])

/-- Model of `tcp_io::start_io(header_size, msg_handler, msg_frame)`
(tcp_io.hpp lines 94-104): on successful setup, sets `m_read_size`, resizes
`m_byte_vec` to it, and starts a read of the whole byte vector. -/
def tcp_start_io_hdr (s : TcpIo) (remoteRes : Except Nat Endp)
    (headerSize : Nat) : Bool × TcpIo × List TcpEvent :=
  match tcp_start_io_setup s remoteRes with
  | (false, s1, evs) => (false, s1, evs)
  | (true, s1, evs) =>
    let s2 := { s1 with readSize := headerSize,
                        byteVec := listResize s1.byteVec headerSize }
    (true, s2, evs ++ [.startRead 0 headerSize])

/-- Model of `tcp_io::start_io(delimiter, msg_handler)` (tcp_io.hpp lines
106-114): on successful setup, sets `m_delimiter` and starts a read-until. -/
def tcp_start_io_delim (s : TcpIo) (remoteRes : Except Nat Endp)
    (delim : Buf) : Bool × TcpIo × List TcpEvent :=
  match tcp_start_io_setup s remoteRes with
  | (false, s1, evs) => (false, s1, evs)
  | (true, s1, evs) =>
    (true, { s1 with delimiter := delim }, evs ++ [.startReadUntil])

/-- Model of `tcp_io::start_io(read_size, msg_handler)` (tcp_io.hpp lines
116-119): delegates to the header overload with `null_msg_frame`. -/
def tcp_start_io_fixed (s : TcpIo) (remoteRes : Except Nat Endp)
    (readSize : Nat) : Bool × TcpIo × List TcpEvent :=
  tcp_start_io_hdr s remoteRes readSize

/-- Model of `tcp_io::start_io()` (tcp_io.hpp lines 121-129): delegates to
the header overload with size 1, an always-true handler, `null_msg_frame`. -/
def tcp_start_io_basic (s : TcpIo) (remoteRes : Except Nat Endp) :
    Bool × TcpIo × List TcpEvent :=
  tcp_start_io_hdr s remoteRes 1

/-- Result of one `tcp_io::handle_read` completion: the new handler state,
the message delivered to the message handler (if the framing returned 0),
the next read region `(offset, length)` into `m_byte_vec` (none if no
further read is started), and the entity notification (if any). -/
structure TcpReadResult where
  state : TcpIo
  delivered : Option Buf
  next : Option (Nat × Nat)
  notified : Option NetErrc
deriving DecidableEq, Repr

/-- Model of `tcp_io::handle_read` (tcp_io.hpp lines 231-259) in
header-plus-callback framing mode.  The async read has already filled the
region `[mbufOff, mbufOff+mbufLen)` of `m_byte_vec`; `frame` is the
`msg_frame` callback applied to that region, `hdlr` the message handler
(returning its `bool`).  When `frame` returns 0 the whole `m_byte_vec` is
delivered and (on a true handler result) the vector is resized to
`m_read_size` and a read of the region `(0, m_read_size)` is started; when
it returns `n > 0` the vector grows by `n` zeros and a read of the fresh
region `(old_size, n)` is started. -/
def tcp_handle_read (s : TcpIo) (err : Option NetErrc) (frame : Buf → Nat)
    (hdlr : Buf → Endp → Bool) (mbufOff mbufLen : Nat) : TcpReadResult :=
  match err with
  | some e => ⟨s, none, none, some e⟩
  | none =>
    let mbuf := (s.byteVec.drop mbufOff).take mbufLen
    let nextReadSize := frame mbuf
    if nextReadSize = 0 then
      if hdlr s.byteVec s.remoteEndp then
        ⟨{ s with byteVec := listResize s.byteVec s.readSize },
         some s.byteVec, some (0, s.readSize), none⟩
      else
        ⟨s, some s.byteVec, none, some .message_handler_terminated⟩
    else
      ⟨{ s with byteVec := s.byteVec ++ List.replicate nextReadSize 0 },
       none, some (s.byteVec.length, nextReadSize), none⟩

/-- Model of an async read completing: the wire bytes `seg` are placed into
the region of the byte vector starting at `off`. -/
def fillRegion (bv : Buf) (off : Nat) (seg : Buf) : Buf :=
  bv.take off ++ seg ++ bv.drop (off + seg.length)

/-- Driver for the header-plus-callback read loop, faithful to the chaining
`start_read` → `async_read` → `handle_read` in tcp_io.hpp: each async read
fills the pending region `(off, len)` with the next `len` wire bytes, then
`tcp_handle_read` runs.  The driver stops at the first delivery, returning
the delivered message, the post-`handle_read` state and the unconsumed
wire bytes.  `fuel` bounds the number of reads; `none` means the loop did
not deliver within `fuel` reads (or a read never completes). -/
def readUntilDeliver (frame : Buf → Nat) (hdlr : Buf → Endp → Bool) :
    Nat → TcpIo → Nat → Nat → Buf → Option (Buf × TcpIo × Buf)
  | 0, _, _, _, _ => none
  | fuel + 1, s, off, len, wire =>
    if len ≤ wire.length then
      let seg := wire.take len
      let s1 := { s with byteVec := fillRegion s.byteVec off seg }
      let r := tcp_handle_read s1 none frame hdlr off len
      match r.delivered with
      | some msg => some (msg, r.state, wire.drop len)
      | none =>
        match r.next with
        | some (off', len') =>
          readUntilDeliver frame hdlr fuel r.state off' len' (wire.drop len)
        | none => none
    else none

/-- Result of one `tcp_io::handle_read_until` completion: new state,
delivered message (if any), whether the next `async_read_until` was
started, and the entity notification (if any). -/
structure TcpReadUntilResult where
  state : TcpIo
  delivered : Option Buf
  readUntilStarted : Bool
  notified : Option NetErrc
deriving DecidableEq, Repr

/-- Model of `tcp_io::handle_read_until` (tcp_io.hpp lines 261-277) in
delimiter framing mode: deliver the first `nb` bytes of `m_byte_vec`
(`nb` as reported by `async_read_until`), and on a true handler result
erase exactly those bytes and start the next read-until. -/
def tcp_handle_read_until (s : TcpIo) (err : Option NetErrc) (nb : Nat)
    (hdlr : Buf → Endp → Bool) : TcpReadUntilResult :=
  match err with
  | some e => ⟨s, none, false, some e⟩
  | none =>
    if hdlr (s.byteVec.take nb) s.remoteEndp then
      ⟨{ s with byteVec := s.byteVec.drop nb }, some (s.byteVec.take nb),
       true, none⟩
    else
      ⟨s, some (s.byteVec.take nb), false, some .message_handler_terminated⟩

/-- Index of the first occurrence of `delim` as a contiguous sublist of
`l`, modelling where `async_read_until` finds the delimiter. -/
def findDelim (delim : Buf) : Buf → Option Nat
  | [] => if delim = [] then some 0 else none
  | b :: rest =>
    if delim.isPrefixOf (b :: rest) then some 0
    else (findDelim delim rest).map (· + 1)

/-! ## TCP write path (`tcp_io::send` / `tcp_io::handle_write`) -/

/-- Write-path system state for one `tcp_io` handler: its `io_common`, the
buffer of the currently outstanding `async_write` (none if no write is in
flight), the buffers whose writes have completed (in completion order), and
the ghost list of buffers accepted by `start_write_setup` (queued or
written), in the order the posted send closures ran. -/
structure TcpWriteSys where
  ioc : IoCommonSt
  outstanding : Option Buf
  wire : List Buf
  submitted : List Buf
deriving DecidableEq, Repr

/-- Write system of a freshly started handler: io started, no write in
flight, empty queue, nothing written. -/
def initWriteSys : TcpWriteSys :=
  ⟨⟨true, false, []⟩, none, [], []⟩

/-- Model of the posted closure of `tcp_io::send` (tcp_io.hpp lines
143-152): run `start_write_setup(buf)`; if it returns false the buffer was
queued (or dropped on shutdown) and no new write starts; otherwise
`start_write(buf)` begins an async write of `buf`. -/
def tcp_send_step (s : TcpWriteSys) (buf : Buf) : TcpWriteSys :=
  let sub' := if s.ioc.ioStarted then s.submitted ++ [buf] else s.submitted
  match start_write_setup s.ioc buf none with
  | (true, ioc') => { s with ioc := ioc', outstanding := some buf, submitted := sub' }
  | (false, ioc') => { s with ioc := ioc', submitted := sub' }

/-- Model of `tcp_io::handle_write` (tcp_io.hpp lines 290-301), invoked when
the outstanding async write completes.  On error it returns (write-side
errors are left for the read path).  Without error the completed buffer is
on the wire and `get_next_element` either dequeues the next element and
starts its write, or clears the write-in-flight flag. -/
def tcp_write_complete_step (s : TcpWriteSys) (err : Bool) : TcpWriteSys :=
  match s.outstanding with
  | none => s
  | some b =>
    if err then { s with outstanding := none }
    else
      match get_next_element s.ioc with
      | (some e, ioc') =>
        { s with ioc := ioc', outstanding := some e.1, wire := s.wire ++ [b] }
      | (none, ioc') =>
        { s with ioc := ioc', outstanding := none, wire := s.wire ++ [b] }

/-- Events driving the write path: a posted send closure running, or the
outstanding write completing (with or without error). -/
inductive WriteEv where
  | send (buf : Buf)
  | complete (err : Bool)
deriving DecidableEq, Repr

/-- Run a sequence of write-path events. -/
def runWrites (s : TcpWriteSys) : List WriteEv → TcpWriteSys
  | [] => s
  | .send b :: evs => runWrites (tcp_send_step s b) evs
  | .complete e :: evs => runWrites (tcp_write_complete_step s e) evs

/-- Write-path invariant: the write-in-flight flag tracks exactly whether a
write is outstanding, the queue is empty whenever no write is in flight,
and every accepted buffer is, in order, either already written, the single
outstanding write, or still queued. -/
def writeInv (s : TcpWriteSys) : Prop :=
  s.ioc.writeInFlight = s.outstanding.isSome ∧
  (s.ioc.writeInFlight = false → s.ioc.outq = []) ∧
  s.submitted = s.wire ++ s.outstanding.toList ++ s.ioc.outq.map Prod.fst

/-! ## UDP entity / IO handler (`udp_entity_io`, detail/udp_entity_io.hpp) -/

/-- Observable actions of a `udp_entity_io` object: socket close, error
callback (`err_notify` → `net_entity_common::call_error_cb`), IO state
change callback, starting an `async_send_to`, starting an
`async_receive_from`. -/
inductive UdpEvent where
  | sockClose
  | errCb (e : NetErrc)
  | ioStateChg (cnt : Nat) (starting : Bool)
  | asyncSendTo (buf : Buf) (dest : Endp)
  | startRead
deriving DecidableEq, Repr

/-- State of a `udp_entity_io` object: entity started flag (from
`m_entity_common`), `m_io_common`, `m_local_endp`, `m_default_dest_endp`,
`m_max_size`, `m_byte_vec` and `m_sender_endp`. -/
structure UdpState where
  entStarted : Bool
  ioc : IoCommonSt
  localEndp : Endp
  defaultDest : Endp
  maxSize : Nat
  byteVec : Buf
  senderEndp : Endp
deriving DecidableEq, Repr

/-- Model of the `udp_entity_io` constructor (udp_entity_io.hpp lines
69-73): everything default except the local endpoint. -/
def udp_init (localEndp : Endp) : UdpState :=
  ⟨false, IoCommonSt.init, localEndp, Endp.dflt, 0, [], Endp.dflt⟩

/-- Model of `udp_entity_io::stop_io` (udp_entity_io.hpp lines 158-167):
if the io stop CAS fails return false; otherwise close the socket, notify
the error callback with `udp_io_handler_stopped`, and invoke the IO state
change callback with count 0 and starting=false. -/
def udp_stop_io (s : UdpState) : Bool × UdpState × List UdpEvent :=
  match io_common_stop s.ioc with
  | (false, _) => (false, s, [])
  | (true, ioc') =>
    (true, { s with ioc := ioc' },
     [.sockClose, .errCb .udp_io_handler_stopped, .ioStateChg 0 false])

/-- Model of `udp_entity_io::stop` (udp_entity_io.hpp lines 169-176): if
the entity stop CAS fails return false; otherwise run `stop_io` and notify
the error callback with `udp_entity_stopped`. -/
def udp_stop (s : UdpState) : Bool × UdpState × List UdpEvent :=
  match entity_stop_flag s.entStarted with
  | (false, _) => (false, s, [])
  | (true, f) =>
    let r := udp_stop_io { s with entStarted := f }
    (true, r.2.1, r.2.2 ++ [.errCb .udp_entity_stopped])

/-- Model of `udp_entity_io::start` (udp_entity_io.hpp lines 97-120):
if the entity start CAS fails return false; otherwise open or bind the
socket (`bindOk` false models the thrown `std::system_error` with OS code
`osCode`, leading to `err_notify` then `stop` then false), and on success
invoke the IO state change callback with count 1 and starting=true. -/
def udp_start (s : UdpState) (bindOk : Bool) (osCode : Nat) :
    Bool × UdpState × List UdpEvent :=
  match entity_start_flag s.entStarted with
  | (false, _) => (false, s, [])
  | (true, f) =>
    let s1 := { s with entStarted := f }
    if bindOk then (true, s1, [.ioStateChg 1 true])
    else
      let r := udp_stop s1
      (false, r.2.1, .errCb (.os_error osCode) :: r.2.2)

/-- Model of `udp_entity_io::start_read` (udp_entity_io.hpp lines 202-214):
resize `m_byte_vec` to `m_max_size` and start an `async_receive_from`. -/
def udp_start_read (s : UdpState) : UdpState × List UdpEvent :=
  ({ s with byteVec := listResize s.byteVec s.maxSize }, [.startRead])

/-- Model of `udp_entity_io::start_io(max_size, msg_handler)`
(udp_entity_io.hpp lines 122-130). -/
def udp_start_io_recv (s : UdpState) (maxSize : Nat) :
    Bool × UdpState × List UdpEvent :=
  match set_io_started s.ioc with
  | (false, _) => (false, s, [])
  | (true, ioc') =>
    let r := udp_start_read { s with ioc := ioc', maxSize := maxSize }
    (true, r.1, r.2)

/-- Model of `udp_entity_io::start_io(endp, max_size, msg_handler)`
(udp_entity_io.hpp lines 132-141): also sets `m_default_dest_endp`. -/
def udp_start_io_recv_dest (s : UdpState) (endp : Endp) (maxSize : Nat) :
    Bool × UdpState × List UdpEvent :=
  match set_io_started s.ioc with
  | (false, _) => (false, s, [])
  | (true, ioc') =>
    let r := udp_start_read
      { s with ioc := ioc', maxSize := maxSize, defaultDest := endp }
    (true, r.1, r.2)

/-- Model of `udp_entity_io::start_io()` (udp_entity_io.hpp lines 143-148):
send-only, no read started, no default destination set. -/
def udp_start_io_send_only (s : UdpState) : Bool × UdpState × List UdpEvent :=
  match set_io_started s.ioc with
  | (false, _) => (false, s, [])
  | (true, ioc') => (true, { s with ioc := ioc' }, [])

/-- Model of `udp_entity_io::start_io(endp)` (udp_entity_io.hpp lines
150-156): send-only with a default destination. -/
def udp_start_io_send_only_dest (s : UdpState) (endp : Endp) :
    Bool × UdpState × List UdpEvent :=
  match set_io_started s.ioc with
  | (false, _) => (false, s, [])
  | (true, ioc') =>
    (true, { s with ioc := ioc', defaultDest := endp }, [])

/-- Model of the posted closure of `udp_entity_io::send(buf)`
(udp_entity_io.hpp lines 178-187): `start_write_setup(buf)`; when it
returns true, `start_write(buf, m_default_dest_endp)` begins an
`async_send_to` aimed at the default destination endpoint — whatever its
value, including the default-constructed endpoint. -/
def udp_send (s : UdpState) (buf : Buf) : UdpState × List UdpEvent :=
  match start_write_setup s.ioc buf none with
  | (false, ioc') => ({ s with ioc := ioc' }, [])
  | (true, ioc') =>
    ({ s with ioc := ioc' }, [.asyncSendTo buf s.defaultDest])

/-- Model of the posted closure of `udp_entity_io::send(buf, endp)`
(udp_entity_io.hpp lines 189-198): `start_write_setup(buf, endp)`; when it
returns true, `start_write(buf, endp)` begins an `async_send_to` aimed at
the explicit endpoint. -/
def udp_send_to (s : UdpState) (buf : Buf) (endp : Endp) :
    UdpState × List UdpEvent :=
  match start_write_setup s.ioc buf (some endp) with
  | (false, ioc') => ({ s with ioc := ioc' }, [])
  | (true, ioc') => ({ s with ioc := ioc' }, [.asyncSendTo buf endp])

/-- Model of `udp_entity_io::handle_read` (udp_entity_io.hpp lines
231-247): on a read error, `err_notify(err)` then `stop()`; on the message
handler returning false, `err_notify(message_handler_terminated)` then
`stop()`; otherwise start the next read. -/
def udp_handle_read (s : UdpState) (err : Option NetErrc) (nb : Nat)
    (mh : Buf → Endp → Bool) : UdpState × List UdpEvent :=
  match err with
  | some e =>
    let r := udp_stop s
    (r.2.1, .errCb e :: r.2.2)
  | none =>
    if mh (s.byteVec.take nb) s.senderEndp then udp_start_read s
    else
      let r := udp_stop s
      (r.2.1, .errCb .message_handler_terminated :: r.2.2)

/-- Iterated `udp_entity_io::stop`: apply `stop()` `n` times, accumulating
the state and the concatenated event trace (the observable effect). -/
def udpStopN : Nat → UdpState → UdpState × List UdpEvent
  | 0, s => (s, [])
  | n + 1, s =>
    let r := udp_stop s
    let r2 := udpStopN n r.2.1
    (r2.1, r.2.2 ++ r2.2)

/-- Projection of an error-callback event to its error code. -/
def errOf : UdpEvent → Option NetErrc
  | .errCb e => some e
  | _ => none

/-! ## TCP connector (`tcp_connector`, detail/tcp_connector.hpp) -/

/-- Observable actions of `tcp_connector::stop`: timer cancel, resolver
cancel, stopping all IO handlers, and the shutdown state-change callback. -/
inductive ConnEvent where
  | timerCancel
  | resolverCancel
  | stopIoAll
  | shutdownCb (e : NetErrc)
deriving DecidableEq, Repr

/-- State of a `tcp_connector` relevant to `stop`: the entity-base started
flag and the set of live handler ids. -/
structure ConnState where
  entStarted : Bool
  handlers : List Nat
deriving DecidableEq, Repr

/-- Model of `tcp_connector::stop` (tcp_connector.hpp lines 112-122): if
the entity-base stop CAS fails, return immediately; otherwise cancel the
timer and the resolver, stop all IO handlers, clear the handler set, and
invoke the shutdown state-change callback with `tcp_connector_stopped`. -/
def tcp_connector_stop (s : ConnState) : ConnState × List ConnEvent :=
  match entity_stop_flag s.entStarted with
  | (false, _) => (s, [])
  | (true, f) =>
    ({ entStarted := f, handlers := [] },
     [.timerCancel, .resolverCancel, .stopIoAll,
      .shutdownCb .tcp_connector_stopped])

/-- Iterated `tcp_connector::stop` with accumulated event trace. -/
def connStopN : Nat → ConnState → ConnState × List ConnEvent
  | 0, s => (s, [])
  | n + 1, s =>
    let r := tcp_connector_stop s
    let r2 := connStopN n r.1
    (r2.1, r.2 ++ r2.2)

/-! ## Entity handles (`basic_net_entity`, basic_net_entity.hpp) -/

/-- Model of a `basic_net_entity` handle: the result of locking its
`std::weak_ptr` is `none` for a default-constructed or expired handle and
`some id` for a live target, where `id` is the identity (allocation
address, used by `shared_ptr` equality and ordering) of the entity. -/
structure BasicNetEntity where
  wptr : Option Nat
deriving DecidableEq, Repr

/-- Model of a default-constructed `basic_net_entity`. -/
def bne_default : BasicNetEntity := ⟨none⟩

/-- Model of `m_eh_wptr.lock()`. -/
def bne_lock (h : BasicNetEntity) : Option Nat := h.wptr

/-- Model of `basic_net_entity::operator==` (basic_net_entity.hpp lines
257-261): `(lp && rp && lp == rp) || (!lp && !rp)`. -/
def bne_eq (a b : BasicNetEntity) : Bool :=
  match bne_lock a, bne_lock b with
  | some l, some r => l == r
  | none, none => true
  | _, _ => false

/-- Model of `basic_net_entity::operator<` (basic_net_entity.hpp lines
276-280): `(lp && rp && lp < rp) || (!lp && rp)`. -/
def bne_lt (a b : BasicNetEntity) : Bool :=
  match bne_lock a, bne_lock b with
  | some l, some r => decide (l < r)
  | none, some _ => true
  | _, _ => false

/-- Model of `basic_net_entity::start` (basic_net_entity.hpp lines
210-214) over a UDP entity target: `p ? (p->start(...), true) : false`.
The comma operator discards the bool returned by the entity-level start. -/
def bne_start (h : Option UdpState) (bindOk : Bool) (osCode : Nat) :
    Bool × Option UdpState :=
  match h with
  | none => (false, none)
  | some s => (true, some (udp_start s bindOk osCode).2.1)

/-- Model of `basic_net_entity::stop` (basic_net_entity.hpp lines 242-245)
over a UDP entity target: `p ? (p->stop(), true) : false`, again
discarding the entity-level stop result. -/
def bne_stop (h : Option UdpState) : Bool × Option UdpState :=
  match h with
  | none => (false, none)
  | some s => (true, some (udp_stop s).2.1)

/-! ## Theorems -/

/-- C1: for every TCP or UDP IO handler, the first call to `start_io` (any
overload) returns true and marks IO as started; every subsequent `start_io`
call on the same handler (any overload) returns false and is a no-op — it
changes no state (in particular no framing configuration) and starts no
read. -/
theorem c1_start_io_once_then_noop :
    (∀ (s : TcpIo) (e : Endp) (hdr : Nat) (d : Buf),
       s.ioc.ioStarted = false →
         (tcp_start_io_hdr s (.ok e) hdr).1 = true ∧
         (tcp_start_io_hdr s (.ok e) hdr).2.1.ioc.ioStarted = true ∧
         (tcp_start_io_delim s (.ok e) d).1 = true ∧
         (tcp_start_io_delim s (.ok e) d).2.1.ioc.ioStarted = true ∧
         (tcp_start_io_fixed s (.ok e) hdr).1 = true ∧
         (tcp_start_io_basic s (.ok e)).1 = true) ∧
    (∀ (s : TcpIo) (r : Except Nat Endp) (hdr : Nat) (d : Buf),
       s.ioc.ioStarted = true →
         tcp_start_io_hdr s r hdr = (false, s, []) ∧
         tcp_start_io_delim s r d = (false, s, []) ∧
         tcp_start_io_fixed s r hdr = (false, s, []) ∧
         tcp_start_io_basic s r = (false, s, [])) ∧
    (∀ (s : UdpState) (endp : Endp) (m : Nat),
       s.ioc.ioStarted = false →
         (udp_start_io_recv s m).1 = true ∧
         (udp_start_io_recv s m).2.1.ioc.ioStarted = true ∧
         (udp_start_io_recv_dest s endp m).1 = true ∧
         (udp_start_io_recv_dest s endp m).2.1.ioc.ioStarted = true ∧
         (udp_start_io_send_only s).1 = true ∧
         (udp_start_io_send_only s).2.1.ioc.ioStarted = true ∧
         (udp_start_io_send_only_dest s endp).1 = true ∧
         (udp_start_io_send_only_dest s endp).2.1.ioc.ioStarted = true) ∧
    (∀ (s : UdpState) (endp : Endp) (m : Nat),
       s.ioc.ioStarted = true →
         udp_start_io_recv s m = (false, s, []) ∧
         udp_start_io_recv_dest s endp m = (false, s, []) ∧
         udp_start_io_send_only s = (false, s, []) ∧
         udp_start_io_send_only_dest s endp = (false, s, [])) := by
  refine ⟨fun s e hdr d h => ?_, fun s r hdr d h => ?_,
          fun s endp m h => ?_, fun s endp m h => ?_⟩ <;>
    simp [tcp_start_io_hdr, tcp_start_io_delim, tcp_start_io_fixed,
          tcp_start_io_basic, tcp_start_io_setup, udp_start_io_recv,
          udp_start_io_recv_dest, udp_start_io_send_only,
          udp_start_io_send_only_dest, udp_start_read, set_io_started, h]

/-- C1 witness: on a fresh handler `start_io` returns true; on a handler
whose IO is already started, `start_io` returns false and changes
nothing. -/
theorem c1_witness :
    (tcp_start_io_hdr tcp_io_init (Except.ok ⟨1, 2⟩) 4).1 = true ∧
    tcp_start_io_delim { tcp_io_init with ioc := ⟨true, false, []⟩ }
        (Except.ok ⟨1, 2⟩) [13, 10] =
      (false, { tcp_io_init with ioc := ⟨true, false, []⟩ }, []) ∧
    udp_start_io_recv { udp_init ⟨5, 6⟩ with ioc := ⟨true, false, []⟩ } 10 =
      (false, { udp_init ⟨5, 6⟩ with ioc := ⟨true, false, []⟩ }, []) :=
  ⟨(c1_start_io_once_then_noop.1 tcp_io_init ⟨1, 2⟩ 4 [] rfl).1,
   (c1_start_io_once_then_noop.2.1 { tcp_io_init with ioc := ⟨true, false, []⟩ }
      (Except.ok ⟨1, 2⟩) 4 [13, 10] rfl).2.1,
   (c1_start_io_once_then_noop.2.2.2 { udp_init ⟨5, 6⟩ with ioc := ⟨true, false, []⟩ }
      ⟨0, 0⟩ 10 rfl).1⟩

/-- Filling the zero-padded pending region of the byte vector with the
freshly read segment yields the accumulated bytes followed by the
segment. -/
lemma fillRegion_exact (acc seg : Buf) (len : Nat) (h : seg.length = len) :
    fillRegion (acc ++ List.replicate len 0) acc.length seg = acc ++ seg := by
  unfold fillRegion
  rw [List.take_left, h]
  have hlen : acc.length + len = (acc ++ List.replicate len 0).length := by
    simp
  rw [hlen, List.drop_length, List.append_nil]

/-- The mbuf region handed to the framing callback is exactly the segment
just read. -/
lemma drop_take_seg (acc seg : Buf) (len : Nat) (h : seg.length = len) :
    ((acc ++ seg).drop acc.length).take len = seg := by
  rw [List.drop_left, ← h, List.take_length]

/-- Core invariant of the header-plus-callback read loop: entering an
iteration with accumulated bytes `acc`, a pending region of `len` zeros at
offset `acc.length`, the delivered message extends `acc` by exactly the
wire bytes consumed. -/
lemma readUntilDeliver_concat (frame : Buf → Nat) (hdlr : Buf → Endp → Bool) :
    ∀ (fuel : Nat) (acc : Buf) (len : Nat) (s : TcpIo) (wire : Buf)
      (msg : Buf) (st' : TcpIo) (rest : Buf),
      s.byteVec = acc ++ List.replicate len 0 →
      readUntilDeliver frame hdlr fuel s acc.length len wire =
        some (msg, st', rest) →
      ∃ k, k ≤ wire.length ∧ msg = acc ++ wire.take k ∧ rest = wire.drop k := by
  intro fuel
  induction fuel with
  | zero =>
    intro acc len s wire msg st' rest _ h
    simp [readUntilDeliver] at h
  | succ n ih =>
    intro acc len s wire msg st' rest hbv h
    rw [readUntilDeliver] at h
    rcases Nat.lt_or_ge wire.length len with hlt | hlen
    · rw [if_neg (by omega)] at h
      exact absurd h (by simp)
    · rw [if_pos hlen] at h
      have hseg : (wire.take len).length = len := by
        simp [hlen]
      have hfill : fillRegion s.byteVec acc.length (wire.take len) =
          acc ++ wire.take len := by
        rw [hbv]
        exact fillRegion_exact _ _ _ hseg
      simp only [hfill, tcp_handle_read] at h
      rw [drop_take_seg acc (wire.take len) len hseg] at h
      rcases hfr : frame (wire.take len) with _ | n'
      · rw [hfr] at h
        by_cases hh : hdlr (acc ++ wire.take len) s.remoteEndp
        · simp [hh] at h
          exact ⟨len, hlen, h.1.symm, h.2.2.symm⟩
        · simp [hh] at h
          exact ⟨len, hlen, h.1.symm, h.2.2.symm⟩
      · rw [hfr] at h
        simp only [Nat.succ_ne_zero, if_false] at h
        have := ih (acc ++ wire.take len) (n' + 1)
          { s with byteVec := acc ++ wire.take len ++ List.replicate (n' + 1) 0 }
          (wire.drop len) msg st' rest rfl h
        rcases this with ⟨k', hk', hmsg, hrest⟩
        refine ⟨len + k', ?_, ?_, ?_⟩
        · have : (wire.drop len).length = wire.length - len := by simp
          omega
        · rw [List.take_add, hmsg, List.append_assoc]
        · rw [hrest, List.drop_drop]

/-- C2: in header-plus-callback framing mode the framing callback is applied
after each completed read: when it returns `n > 0`, exactly `n` further
bytes are appended to the accumulated buffer and read before the callback
is consulted again; when it returns 0 the message handler receives the
whole accumulated buffer and the buffer is reset to `header_size` bytes;
and across a whole read loop started by `start_io(header_size, ..)` on a
fresh handler, the delivered message is exactly the concatenation of the
initial header-size read and every continuation read (the consumed prefix
of the wire). -/
theorem c2_header_callback_framing :
    (∀ (s : TcpIo) (frame : Buf → Nat) (hdlr : Buf → Endp → Bool)
       (off len n : Nat),
       frame ((s.byteVec.drop off).take len) = n + 1 →
       tcp_handle_read s none frame hdlr off len =
         ⟨{ s with byteVec := s.byteVec ++ List.replicate (n + 1) 0 }, none,
          some (s.byteVec.length, n + 1), none⟩) ∧
    (∀ (s : TcpIo) (frame : Buf → Nat) (hdlr : Buf → Endp → Bool)
       (off len : Nat),
       frame ((s.byteVec.drop off).take len) = 0 →
       hdlr s.byteVec s.remoteEndp = true →
       s.readSize ≤ s.byteVec.length →
       tcp_handle_read s none frame hdlr off len =
         ⟨{ s with byteVec := s.byteVec.take s.readSize }, some s.byteVec,
          some (0, s.readSize), none⟩ ∧
       (tcp_handle_read s none frame hdlr off len).state.byteVec.length =
         s.readSize) ∧
    (∀ (frame : Buf → Nat) (hdlr : Buf → Endp → Bool) (fuel : Nat)
       (s : TcpIo) (wire msg : Buf) (st' : TcpIo) (rest : Buf),
       s.byteVec = List.replicate s.readSize 0 →
       readUntilDeliver frame hdlr fuel s 0 s.readSize wire =
         some (msg, st', rest) →
       msg ++ rest = wire) ∧
    (∀ (e : Endp) (hdr : Nat),
       (tcp_start_io_hdr tcp_io_init (.ok e) hdr).2.1.byteVec =
         List.replicate hdr 0 ∧
       (tcp_start_io_hdr tcp_io_init (.ok e) hdr).2.1.readSize = hdr) := by
  refine ⟨fun s frame hdlr off len n hfr => ?_,
          fun s frame hdlr off len hfr hh hle => ?_,
          fun frame hdlr fuel s wire msg st' rest hbv h => ?_,
          fun e hdr => ?_⟩
  · simp [tcp_handle_read, hfr]
  · have hres : listResize s.byteVec s.readSize = s.byteVec.take s.readSize := by
      unfold listResize
      have : s.readSize - s.byteVec.length = 0 := by omega
      simp [this]
    constructor
    · simp [tcp_handle_read, hfr, hh, hres]
    · simp [tcp_handle_read, hfr, hh, hres, hle]
  · have h0 : readUntilDeliver frame hdlr fuel s (([] : Buf)).length
        s.readSize wire = some (msg, st', rest) := by simpa using h
    rcases readUntilDeliver_concat frame hdlr fuel [] s.readSize s wire
        msg st' rest (by simpa using hbv) h0 with ⟨k, hk, hmsg, hrest⟩
    rw [hmsg, hrest]
    simp
  · simp [tcp_start_io_hdr, tcp_start_io_setup, set_io_started, tcp_io_init,
          IoCommonSt.init, listResize]

/-- C2 witness: a two-byte header whose first byte announces three body
bytes; the delivered message is the header read concatenated with the
continuation read, and together with the unconsumed bytes it re-forms the
wire. -/
theorem c2_witness :
    ([3, 9, 10, 11, 12] : Buf) ++ [99, 98] = [3, 9, 10, 11, 12, 99, 98] :=
  c2_header_callback_framing.2.2.1
    (fun seg => if seg.length = 2 then seg.headI else 0) (fun _ _ => true) 10
    (tcp_start_io_hdr tcp_io_init (Except.ok ⟨1, 2⟩) 2).2.1
    [3, 9, 10, 11, 12, 99, 98] [3, 9, 10, 11, 12]
    ⟨⟨true, false, []⟩, ⟨1, 2⟩, [3, 9], 2, []⟩ [99, 98] (by decide) (by decide)

/-- Posted send closures preserve the write-path invariant. -/
lemma tcp_send_step_inv (s : TcpWriteSys) (b : Buf) (h : writeInv s) :
    writeInv (tcp_send_step s b) := by
  obtain ⟨h1, h2, h3⟩ := h
  by_cases hst : s.ioc.ioStarted
  · by_cases hw : s.ioc.writeInFlight
    · have hout : s.outstanding.isSome = true := h1 ▸ hw
      refine ⟨?_, ?_, ?_⟩ <;>
        simp [writeInv, tcp_send_step, start_write_setup, hst, hw, hout, h3]
    · have hwf : s.ioc.writeInFlight = false := by simpa using hw
      have hq : s.ioc.outq = [] := h2 hwf
      have hout : s.outstanding = none := by
        cases ho : s.outstanding
        · rfl
        · rw [ho] at h1; simp [h1] at hwf
      refine ⟨?_, ?_, ?_⟩ <;>
        simp [writeInv, tcp_send_step, start_write_setup, hst, hwf, hq, hout, h3]
  · have hstf : s.ioc.ioStarted = false := by simpa using hst
    have hid : tcp_send_step s b = s := by
      simp [tcp_send_step, start_write_setup, hstf]
    rw [hid]
    exact ⟨h1, h2, h3⟩

/-- Error-free write completions preserve the write-path invariant. -/
lemma tcp_write_complete_inv (s : TcpWriteSys) (h : writeInv s) :
    writeInv (tcp_write_complete_step s false) := by
  obtain ⟨h1, h2, h3⟩ := h
  cases ho : s.outstanding with
  | none =>
    refine ⟨?_, ?_, ?_⟩ <;>
      simp [tcp_write_complete_step, ho, ho ▸ h1, h2, ho ▸ h3]
  | some b =>
    have hw : s.ioc.writeInFlight = true := by rw [h1, ho]; rfl
    cases hq : s.ioc.outq with
    | nil =>
      refine ⟨?_, ?_, ?_⟩ <;>
        simp [tcp_write_complete_step, get_next_element, ho, hq, hq ▸ ho ▸ h3]
    | cons e rest =>
      refine ⟨?_, ?_, ?_⟩ <;>
        simp [tcp_write_complete_step, get_next_element, ho, hq, hw,
              hq ▸ ho ▸ h3]

/-- Running error-free write events preserves the write-path invariant. -/
lemma runWrites_inv (evs : List WriteEv) :
    ∀ s : TcpWriteSys, writeInv s → WriteEv.complete true ∉ evs →
      writeInv (runWrites s evs) := by
  induction evs with
  | nil => intro s h _; exact h
  | cons ev evs ih =>
    intro s h hnotin
    cases ev with
    | send b =>
      exact ih _ (tcp_send_step_inv s b h)
        (fun hm => hnotin (List.mem_cons_of_mem _ hm))
    | complete e =>
      cases e with
      | true => exact absurd (List.mem_cons_self _ _) hnotin
      | false =>
        exact ih _ (tcp_write_complete_inv s h)
          (fun hm => hnotin (List.mem_cons_of_mem _ hm))

/-- C3: for a started handler, at most one asynchronous write is ever
outstanding: over any error-free event sequence the write-in-flight flag
tracks exactly whether a write is outstanding, the queue drains to empty
before the flag clears, and the accepted buffers are, in order, the written
ones, then the single outstanding one, then the queued ones; a send during
an in-flight write only appends to the queue (no new write starts and
nothing reaches the wire); and each error-free completion dequeues the next
element in queue order and starts its write. -/
theorem c3_one_write_in_flight :
    (∀ evs : List WriteEv, WriteEv.complete true ∉ evs →
       writeInv (runWrites initWriteSys evs)) ∧
    (∀ (s : TcpWriteSys) (b : Buf), s.ioc.ioStarted = true →
       s.ioc.writeInFlight = true →
       (tcp_send_step s b).outstanding = s.outstanding ∧
       (tcp_send_step s b).ioc.outq = s.ioc.outq ++ [(b, none)] ∧
       (tcp_send_step s b).wire = s.wire) ∧
    (∀ (s : TcpWriteSys) (b : Buf) (e : Buf × Option Endp)
       (rest : List (Buf × Option Endp)),
       s.outstanding = some b → s.ioc.outq = e :: rest →
       (tcp_write_complete_step s false).outstanding = some e.1 ∧
       (tcp_write_complete_step s false).ioc.outq = rest ∧
       (tcp_write_complete_step s false).wire = s.wire ++ [b]) := by
  refine ⟨fun evs he => runWrites_inv evs initWriteSys ⟨rfl, fun _ => rfl, rfl⟩ he,
          fun s b hst hw => ?_, fun s b e rest ho hq => ?_⟩
  · simp [tcp_send_step, start_write_setup, hst, hw]
  · simp [tcp_write_complete_step, get_next_element, ho, hq]

/-- C3 witness: three sends, the first write completing: the second buffer
is dequeued and becomes the outstanding write, the third stays queued, in
order. -/
theorem c3_witness :
    writeInv (runWrites initWriteSys
      [WriteEv.send [1], WriteEv.send [2], WriteEv.send [3],
       WriteEv.complete false]) :=
  c3_one_write_in_flight.1
    [WriteEv.send [1], WriteEv.send [2], WriteEv.send [3],
     WriteEv.complete false] (by decide)

/-- C4: if the application message handler returns false for a delivered
message, the handler is torn down: for TCP (both framing modes) the entity
notifier is invoked with `message_handler_terminated` and no further read
is started; for UDP the error callback is invoked with
`message_handler_terminated`, no further read is started, and the entity
is stopped. -/
theorem c4_handler_false_tears_down :
    (∀ (s : TcpIo) (frame : Buf → Nat) (hdlr : Buf → Endp → Bool)
       (off len : Nat),
       frame ((s.byteVec.drop off).take len) = 0 →
       hdlr s.byteVec s.remoteEndp = false →
       (tcp_handle_read s none frame hdlr off len).notified =
         some NetErrc.message_handler_terminated ∧
       (tcp_handle_read s none frame hdlr off len).next = none) ∧
    (∀ (s : TcpIo) (nb : Nat) (hdlr : Buf → Endp → Bool),
       hdlr (s.byteVec.take nb) s.remoteEndp = false →
       (tcp_handle_read_until s none nb hdlr).notified =
         some NetErrc.message_handler_terminated ∧
       (tcp_handle_read_until s none nb hdlr).readUntilStarted = false) ∧
    (∀ (s : UdpState) (nb : Nat) (mh : Buf → Endp → Bool),
       mh (s.byteVec.take nb) s.senderEndp = false →
       ((udp_handle_read s none nb mh).2).head? =
         some (UdpEvent.errCb NetErrc.message_handler_terminated) ∧
       UdpEvent.startRead ∉ (udp_handle_read s none nb mh).2 ∧
       (udp_handle_read s none nb mh).1.entStarted = false) := by
  refine ⟨fun s frame hdlr off len hfr hh => ?_,
          fun s nb hdlr hh => ?_, fun s nb mh hmh => ?_⟩
  · constructor <;> simp [tcp_handle_read, hfr, hh]
  · constructor <;> simp [tcp_handle_read_until, hh]
  · cases hs : s.entStarted <;> cases hio : s.ioc.ioStarted <;>
      refine ⟨?_, ?_, ?_⟩ <;>
        simp [udp_handle_read, hmh, udp_stop, udp_stop_io, entity_stop_flag,
              io_common_stop, hs, hio]

/-- C4 witness: a message handler that rejects its message causes a
`message_handler_terminated` notification and no further read, and stops
the UDP entity. -/
theorem c4_witness :
    (tcp_handle_read tcp_io_init none (fun _ => 0) (fun _ _ => false) 0
        0).notified = some NetErrc.message_handler_terminated ∧
    ((udp_handle_read ⟨true, ⟨true, false, []⟩, ⟨5, 6⟩, ⟨0, 0⟩, 0, [], ⟨0, 0⟩⟩
        none 0 (fun _ _ => false)).2).head? =
      some (UdpEvent.errCb NetErrc.message_handler_terminated) :=
  ⟨(c4_handler_false_tears_down.1 tcp_io_init (fun _ => 0) (fun _ _ => false)
      0 0 rfl rfl).1,
   (c4_handler_false_tears_down.2.2
      ⟨true, ⟨true, false, []⟩, ⟨5, 6⟩, ⟨0, 0⟩, 0, [], ⟨0, 0⟩⟩
      0 (fun _ _ => false) rfl).1⟩

/-- Positions returned by `findDelim` are within the searched buffer. -/
lemma findDelim_le (d : Buf) : ∀ (l : Buf) (i : Nat),
    findDelim d l = some i → i ≤ l.length := by
  intro l
  induction l with
  | nil =>
    intro i h
    unfold findDelim at h
    split at h
    · simp at h; omega
    · simp at h
  | cons b rest ih =>
    intro i h
    unfold findDelim at h
    split at h
    · simp at h; omega
    · rcases Option.map_eq_some'.mp h with ⟨j, hj, hij⟩
      have := ih j hj
      simp [← hij]
      omega

/-- The delimiter occurs at the position returned by `findDelim`. -/
lemma findDelim_isPrefix (d : Buf) : ∀ (l : Buf) (i : Nat),
    findDelim d l = some i → d <+: l.drop i := by
  intro l
  induction l with
  | nil =>
    intro i h
    unfold findDelim at h
    split at h
    · simp at h
      subst h
      simp_all
    · simp at h
  | cons b rest ih =>
    intro i h
    unfold findDelim at h
    split at h
    · simp at h
      subst h
      simpa using List.isPrefixOf_iff_prefix.mp (by assumption)
    · rcases Option.map_eq_some'.mp h with ⟨j, hj, hij⟩
      have := ih j hj
      rw [← hij]
      simpa using this

/-- Taking the buffer up to the end of the first delimiter occurrence
yields the bytes before the delimiter followed by the delimiter itself. -/
lemma take_at_delim (l d : Buf) (i : Nat) (h : findDelim d l = some i) :
    l.take (i + d.length) = l.take i ++ d := by
  rcases findDelim_isPrefix d l i h with ⟨t, ht⟩
  rw [List.take_add, ← ht, List.take_left]

/-- C5: in delimiter framing mode, with `nb` the read-until completion
count (end position of the first delimiter occurrence), the delivered
message is the bytes up to and including the delimiter, and when the
handler accepts it exactly that prefix is erased: the bytes already read
past the delimiter remain in the buffer for the next match, and the next
read-until is started. -/
theorem c5_delimiter_mode (s : TcpIo) (hdlr : Buf → Endp → Bool) (i nb : Nat)
    (hfind : findDelim s.delimiter s.byteVec = some i)
    (hnb : nb = i + s.delimiter.length) :
    (tcp_handle_read_until s none nb hdlr).delivered =
      some (s.byteVec.take i ++ s.delimiter) ∧
    (hdlr (s.byteVec.take nb) s.remoteEndp = true →
      (tcp_handle_read_until s none nb hdlr).state.byteVec =
        s.byteVec.drop nb ∧
      (s.byteVec.take i ++ s.delimiter) ++
        (tcp_handle_read_until s none nb hdlr).state.byteVec = s.byteVec ∧
      (tcp_handle_read_until s none nb hdlr).readUntilStarted = true) := by
  have htake : s.byteVec.take nb = s.byteVec.take i ++ s.delimiter := by
    rw [hnb]
    exact take_at_delim _ _ _ hfind
  constructor
  · rcases hcase : hdlr (s.byteVec.take i ++ s.delimiter) s.remoteEndp <;>
      simp [tcp_handle_read_until, htake, hcase]
  · intro hh
    refine ⟨by simp [tcp_handle_read_until, hh], ?_,
            by simp [tcp_handle_read_until, hh]⟩
    rw [← htake]
    simp [tcp_handle_read_until, hh, List.take_append_drop]

/-- C5 witness: buffer `[1, 2, 13, 10, 5, 6]` with CR/LF delimiter: the
delivered message is `[1, 2, 13, 10]` (delimiter included) and the bytes
`[5, 6]` past the delimiter are retained. -/
theorem c5_witness :
    (tcp_handle_read_until
        ⟨⟨true, false, []⟩, ⟨1, 2⟩, [1, 2, 13, 10, 5, 6], 0, [13, 10]⟩ none 4
        (fun _ _ => true)).delivered = some ([1, 2] ++ [13, 10]) ∧
    (tcp_handle_read_until
        ⟨⟨true, false, []⟩, ⟨1, 2⟩, [1, 2, 13, 10, 5, 6], 0, [13, 10]⟩ none 4
        (fun _ _ => true)).state.byteVec = [5, 6] :=
  ⟨(c5_delimiter_mode
      ⟨⟨true, false, []⟩, ⟨1, 2⟩, [1, 2, 13, 10, 5, 6], 0, [13, 10]⟩
      (fun _ _ => true) 2 4 (by decide) (by decide)).1,
   ((c5_delimiter_mode
      ⟨⟨true, false, []⟩, ⟨1, 2⟩, [1, 2, 13, 10, 5, 6], 0, [13, 10]⟩
      (fun _ _ => true) 2 4 (by decide) (by decide)).2 rfl).1⟩

/-- UDP entity that was started and whose IO was started through the
send-only `start_io()` overload, so no default destination was ever
configured. -/
def udpNoDestState : UdpState :=
  (udp_start_io_send_only (udp_start (udp_init ⟨5, 6⟩) true 0).2.1).2.1

/-- C6 counterexample: on a UDP entity with neither an explicit endpoint
nor a configured default destination, `send(buf)` is NOT rejected — the
posted closure starts an `async_send_to` aimed at the default-constructed
endpoint, so a transmission is attempted. -/
theorem c6_counterexample :
    (udp_send udpNoDestState [7]).2 =
      [UdpEvent.asyncSendTo [7] Endp.dflt] ∧
    (udp_send udpNoDestState [7]).2 ≠ [] := by
  constructor <;> decide

/-- C6 (amended): `send(buf, endp)` transmits to `endp`; `send(buf)`
transmits to `m_default_dest_endp`, which is the destination configured at
`start_io` when one was given; and when no default destination was ever
configured, `send(buf)` is still attempted, aimed at the
default-constructed endpoint (rejection is left to the OS). -/
theorem c6_udp_send_destinations :
    (∀ (s : UdpState) (buf : Buf) (endp : Endp),
       s.ioc.ioStarted = true → s.ioc.writeInFlight = false →
       (udp_send_to s buf endp).2 = [UdpEvent.asyncSendTo buf endp]) ∧
    (∀ (s : UdpState) (buf : Buf),
       s.ioc.ioStarted = true → s.ioc.writeInFlight = false →
       (udp_send s buf).2 = [UdpEvent.asyncSendTo buf s.defaultDest]) ∧
    (∀ (s : UdpState) (endp : Endp) (m : Nat) (buf : Buf),
       s.ioc.ioStarted = false → s.ioc.writeInFlight = false →
       (udp_send (udp_start_io_recv_dest s endp m).2.1 buf).2 =
         [UdpEvent.asyncSendTo buf endp]) ∧
    (∀ buf : Buf,
       (udp_send udpNoDestState buf).2 =
         [UdpEvent.asyncSendTo buf Endp.dflt]) := by
  refine ⟨fun s buf endp h1 h2 => ?_, fun s buf h1 h2 => ?_,
          fun s endp m buf h1 h2 => ?_, fun buf => ?_⟩
  · simp [udp_send_to, start_write_setup, h1, h2]
  · simp [udp_send, start_write_setup, h1, h2]
  · simp [udp_send, udp_start_io_recv_dest, udp_start_read, set_io_started,
          start_write_setup, h1, h2]
  · simp [udp_send, udpNoDestState, udp_start_io_send_only, udp_start,
          udp_init, entity_start_flag, set_io_started, IoCommonSt.init,
          start_write_setup, Endp.dflt]

/-- C6 witness: a send with an explicit endpoint goes to that endpoint, and
a send after `start_io(endp, ..)` goes to the configured destination. -/
theorem c6_witness :
    (udp_send_to udpNoDestState [1, 2] ⟨9, 9⟩).2 =
      [UdpEvent.asyncSendTo [1, 2] ⟨9, 9⟩] ∧
    (udp_send (udp_start_io_recv_dest
        (udp_start (udp_init ⟨5, 6⟩) true 0).2.1 ⟨7, 8⟩ 64).2.1 [3]).2 =
      [UdpEvent.asyncSendTo [3] ⟨7, 8⟩] :=
  ⟨c6_udp_send_destinations.1 udpNoDestState [1, 2] ⟨9, 9⟩ (by decide)
     (by decide),
   c6_udp_send_destinations.2.2.1 (udp_start (udp_init ⟨5, 6⟩) true 0).2.1
     ⟨7, 8⟩ 64 [3] (by decide) (by decide)⟩

/-- Stopping a UDP entity always leaves the entity-started flag false. -/
lemma udp_stop_unstarts (s : UdpState) :
    (udp_stop s).2.1.entStarted = false := by
  cases hs : s.entStarted <;> cases hio : s.ioc.ioStarted <;>
    simp [udp_stop, entity_stop_flag, udp_stop_io, io_common_stop, hs, hio]

/-- Calling `stop` on a stopped UDP entity returns false and does
nothing. -/
lemma udp_stop_stopped (s : UdpState) (h : s.entStarted = false) :
    udp_stop s = (false, s, []) := by
  simp [udp_stop, entity_stop_flag, h]

/-- Iterated `stop` on a stopped UDP entity does nothing. -/
lemma udpStopN_stopped : ∀ (n : Nat) (s : UdpState), s.entStarted = false →
    udpStopN n s = (s, []) := by
  intro n
  induction n with
  | zero => intro s _; rfl
  | succ m ih =>
    intro s h
    simp [udpStopN, udp_stop_stopped s h, ih s h]

/-- Stopping a TCP connector always leaves the entity-started flag
false. -/
lemma conn_stop_unstarts (c : ConnState) :
    (tcp_connector_stop c).1.entStarted = false := by
  cases hs : c.entStarted <;>
    simp [tcp_connector_stop, entity_stop_flag, hs]

/-- Calling `stop` on a stopped TCP connector does nothing. -/
lemma conn_stop_stopped (c : ConnState) (h : c.entStarted = false) :
    tcp_connector_stop c = (c, []) := by
  simp [tcp_connector_stop, entity_stop_flag, h]

/-- Iterated `stop` on a stopped TCP connector does nothing. -/
lemma connStopN_stopped : ∀ (n : Nat) (c : ConnState), c.entStarted = false →
    connStopN n c = (c, []) := by
  intro n
  induction n with
  | zero => intro c _; rfl
  | succ m ih =>
    intro c h
    simp [connStopN, conn_stop_stopped c h, ih c h]

/-- C7: `stop()` is idempotent for the UDP entity and the TCP connector:
calling it `n ≥ 1` times produces exactly the state and the observable
event trace of calling it once, and every call after the first returns
immediately (false for the UDP entity, which returns a bool) without
producing any event. -/
theorem c7_stop_idempotent :
    (∀ (n : Nat) (s : UdpState), 1 ≤ n → udpStopN n s = udpStopN 1 s) ∧
    (∀ s : UdpState,
       udp_stop (udp_stop s).2.1 = (false, (udp_stop s).2.1, [])) ∧
    (∀ (n : Nat) (c : ConnState), 1 ≤ n → connStopN n c = connStopN 1 c) ∧
    (∀ c : ConnState,
       tcp_connector_stop (tcp_connector_stop c).1 =
         ((tcp_connector_stop c).1, [])) := by
  refine ⟨fun n s hn => ?_, fun s => udp_stop_stopped _ (udp_stop_unstarts s),
          fun n c hn => ?_,
          fun c => conn_stop_stopped _ (conn_stop_unstarts c)⟩
  · cases n with
    | zero => omega
    | succ m => simp [udpStopN, udpStopN_stopped m _ (udp_stop_unstarts s)]
  · cases n with
    | zero => omega
    | succ m => simp [connStopN, connStopN_stopped m _ (conn_stop_unstarts c)]

/-- C7 witness: three stops of a started UDP entity and of a started
connector equal one stop. -/
theorem c7_witness :
    udpStopN 3 ⟨true, ⟨true, false, []⟩, ⟨5, 6⟩, ⟨0, 0⟩, 0, [], ⟨0, 0⟩⟩ =
      udpStopN 1 ⟨true, ⟨true, false, []⟩, ⟨5, 6⟩, ⟨0, 0⟩, 0, [], ⟨0, 0⟩⟩ ∧
    connStopN 3 ⟨true, [4]⟩ = connStopN 1 ⟨true, [4]⟩ :=
  ⟨c7_stop_idempotent.1 3
     ⟨true, ⟨true, false, []⟩, ⟨5, 6⟩, ⟨0, 0⟩, 0, [], ⟨0, 0⟩⟩ (by decide),
   c7_stop_idempotent.2.2.1 3 ⟨true, [4]⟩ (by decide)⟩

/-- C8: entity handles compare equal exactly when both refer to the same
live object or both are invalid; ordering is by identity of the referenced
object, every invalid handle is strictly below every valid handle and
never above one, and default-constructed handles compare equal to each
other and below any valid handle. -/
theorem c8_handle_eq_and_order :
    (∀ a b : BasicNetEntity,
       bne_eq a b = true ↔
         ((∃ i, a.wptr = some i ∧ b.wptr = some i) ∨
          (a.wptr = none ∧ b.wptr = none))) ∧
    (∀ (a b : BasicNetEntity) (i : Nat),
       a.wptr = none → b.wptr = some i → bne_lt a b = true) ∧
    (∀ a b : BasicNetEntity, b.wptr = none → bne_lt a b = false) ∧
    (∀ (a b : BasicNetEntity) (i j : Nat),
       a.wptr = some i → b.wptr = some j → (bne_lt a b = true ↔ i < j)) ∧
    bne_eq bne_default bne_default = true ∧
    (∀ i : Nat, bne_lt bne_default ⟨some i⟩ = true) := by
  refine ⟨fun a b => ?_, fun a b i ha hb => ?_, fun a b hb => ?_,
          fun a b i j ha hb => ?_, by decide, fun i => ?_⟩
  · cases a with
    | mk wa =>
      cases b with
      | mk wb =>
        cases wa <;> cases wb <;> simp [bne_eq, bne_lock]
        exact eq_comm
  · simp [bne_lt, bne_lock, ha, hb]
  · cases hwa : a.wptr <;> simp [bne_lt, bne_lock, hwa, hb]
  · simp [bne_lt, bne_lock, ha, hb]
  · simp [bne_lt, bne_lock, bne_default]

/-- C8 witness: default-constructed handles are equal; a default handle is
below a valid one; a valid handle is never below an invalid one; two
handles of the same object are equal. -/
theorem c8_witness :
    bne_lt ⟨some 3⟩ ⟨none⟩ = false ∧
    (bne_lt ⟨some 3⟩ ⟨some 5⟩ = true ↔ 3 < 5) ∧
    bne_eq ⟨some 3⟩ ⟨some 3⟩ = true :=
  ⟨c8_handle_eq_and_order.2.2.1 ⟨some 3⟩ ⟨none⟩ rfl,
   c8_handle_eq_and_order.2.2.2.1 ⟨some 3⟩ ⟨some 5⟩ 3 5 rfl rfl,
   (c8_handle_eq_and_order.1 ⟨some 3⟩ ⟨some 3⟩).mpr (.inl ⟨3, rfl, rfl⟩)⟩

/-- C9: `basic_net_entity::start` and `stop` return true exactly when the
weak pointer upgrades to a live entity; the bool returned by the delegated
entity-level start/stop is discarded, so start on an already-started
entity (or stop on an already-stopped one) through a valid handle still
returns true even though the delegated call returned false. -/
theorem c9_handle_start_stop_discard_result :
    ((bne_start none true 0).1 = false ∧ (bne_stop none).1 = false) ∧
    (∀ (s : UdpState) (b : Bool) (c : Nat),
       (bne_start (some s) b c).1 = true) ∧
    (∀ s : UdpState, (bne_stop (some s)).1 = true) ∧
    (∀ (s : UdpState) (b : Bool) (c : Nat), s.entStarted = true →
       (udp_start s b c).1 = false ∧ (bne_start (some s) b c).1 = true) ∧
    (∀ s : UdpState, s.entStarted = false →
       (udp_stop s).1 = false ∧ (bne_stop (some s)).1 = true) := by
  refine ⟨⟨rfl, rfl⟩, fun s b c => rfl, fun s => rfl,
          fun s b c h => ⟨?_, rfl⟩, fun s h => ⟨?_, rfl⟩⟩
  · simp [udp_start, entity_start_flag, h]
  · simp [udp_stop, entity_stop_flag, h]

/-- C9 witness: starting an already-started UDP entity through a valid
handle returns true while the delegated start returned false. -/
theorem c9_witness :
    (udp_start ⟨true, ⟨true, false, []⟩, ⟨5, 6⟩, ⟨0, 0⟩, 0, [], ⟨0, 0⟩⟩
        true 0).1 = false ∧
    (bne_start
        (some ⟨true, ⟨true, false, []⟩, ⟨5, 6⟩, ⟨0, 0⟩, 0, [], ⟨0, 0⟩⟩)
        true 0).1 = true :=
  c9_handle_start_stop_discard_result.2.2.2.1
    ⟨true, ⟨true, false, []⟩, ⟨5, 6⟩, ⟨0, 0⟩, 0, [], ⟨0, 0⟩⟩ true 0 rfl

/-- C10: stopping a started UDP entity whose IO is started closes the
socket, then notifies the error callback with `udp_io_handler_stopped`,
then invokes the IO state-change callback with count 0 and
starting=false, then notifies the error callback with
`udp_entity_stopped`; in particular the error callback fires exactly
twice, in that order, with the state-change callback between the two. -/
theorem c10_udp_stop_event_order (s : UdpState)
    (h1 : s.entStarted = true) (h2 : s.ioc.ioStarted = true) :
    (udp_stop s).2.2 =
      [UdpEvent.sockClose, UdpEvent.errCb NetErrc.udp_io_handler_stopped,
       UdpEvent.ioStateChg 0 false,
       UdpEvent.errCb NetErrc.udp_entity_stopped] ∧
    (udp_stop s).2.2.filterMap errOf =
      [NetErrc.udp_io_handler_stopped, NetErrc.udp_entity_stopped] := by
  constructor <;>
    simp [udp_stop, entity_stop_flag, udp_stop_io, io_common_stop, h1, h2,
          errOf]

/-- C10 witness: the event trace of stopping a concrete started UDP entity
with started IO. -/
theorem c10_witness :
    (udp_stop ⟨true, ⟨true, false, []⟩, ⟨5, 6⟩, ⟨0, 0⟩, 0, [], ⟨0, 0⟩⟩).2.2 =
      [UdpEvent.sockClose, UdpEvent.errCb NetErrc.udp_io_handler_stopped,
       UdpEvent.ioStateChg 0 false,
       UdpEvent.errCb NetErrc.udp_entity_stopped] :=
  (c10_udp_stop_event_order
    ⟨true, ⟨true, false, []⟩, ⟨5, 6⟩, ⟨0, 0⟩, 0, [], ⟨0, 0⟩⟩ rfl rfl).1

end ChopsNet
